import Mathlib

/-!
Verification of the schema-driven SysEx codec of `la_bruteforce`.

The Rust sources are shallowly embedded: byte buffers are `List Nat`
(each element standing for one `u8`), strings are `List Char`
(mirroring Rust's `str::chars` iteration), fallible functions return
`Except`/`Option`, and a `u8`/`usize` arithmetic overflow or an
out-of-bounds index — which panics in Rust — is modelled by an explicit
error value wherever it is reachable.
-/

namespace LaBruteForce

/-! ## Note codec — `src/devices/mod.rs` (`NoteName`, `MidiNote`)

`NoteName` with its discriminant values `C=0, D=2, E=4, F=5, G=7, A=9, B=11`.
-/

inductive NoteName where
| C | D | E | F | G | A | B
deriving DecidableEq, Repr

/-- The `enum` discriminant (`i as u8`). -/
def NoteName.val : NoteName → Nat
| .C => 0
| .D => 2
| .E => 4
| .F => 5
| .G => 7
| .A => 9
| .B => 11

/-- The variant's name as a character (strum `IntoStaticStr`). -/
def NoteName.char : NoteName → Char
| .C => 'C'
| .D => 'D'
| .E => 'E'
| .F => 'F'
| .G => 'G'
| .A => 'A'
| .B => 'B'

/-- Declaration order, as iterated by strum's `EnumIter`. -/
def noteNames : List NoteName := [.C, .D, .E, .F, .G, .A, .B]

/-- strum `EnumString` on a one-character string: exact variant-name match. -/
def noteNameFromChar (c : Char) : Option NoteName :=
  noteNames.find? (fun n => n.char = c)

/-- `u8::from_str` applied to a single character (the octave digit in
`MidiNote::from_str`): succeeds exactly on a decimal digit. -/
def digitVal (c : Char) : Option Nat :=
  if '0' ≤ c ∧ c ≤ '9' then some (c.toNat - 48) else none

/-- `MidiNote::from_str` (src/devices/mod.rs:71-99): letter, optional `#`,
then an optional single octave character parsed as `u8` (absent ⇒ 0);
any characters after the octave digit are never read by the iterator.
Result value `octave * 12 + note + 12`. `none` is the error case. -/
def midiNote_from_str (s : List Char) : Option Nat :=
  match s with
  | [] => none
  | n :: rest =>
    match noteNameFromChar n with
    | none => none
    | some nn =>
      let st : Nat × Option Char :=
        match rest with
        | [] => (nn.val, none)
        | c :: rest2 =>
          if c = '#' then (nn.val + 1, rest2.head?) else (nn.val, some c)
      match st.2 with
      | none => some (0 * 12 + st.1 + 12)
      | some oct =>
        match digitVal oct with
        | none => none
        | some o => some (o * 12 + st.1 + 12)

/-- Decimal rendering of a `Nat` (Rust's `Display` for integers). -/
def natRepr (n : Nat) : List Char := Nat.toDigits 10 n

/-- The letter-search loop of `impl Display for MidiNote`:
first name equal to `n` prints `{name}{oct}`; first name above `n`
prints `{prev}#{oct}`; otherwise remember `prev` and continue. -/
def displayLoop (n oct : Nat) : List NoteName → NoteName → List Char
| [], _ => []
| i :: rest, prev =>
  if i.val = n then i.char :: natRepr oct
  else if n < i.val then prev.char :: '#' :: natRepr oct
  else displayLoop n oct rest i

/-- `impl Display for MidiNote` (src/devices/mod.rs:38-58).
`(self.note - 12)` is a `u8` subtraction: for `note < 12` it panics
(debug) — modelled as `none`. -/
def midiNoteDisplay (note : Nat) : Option (List Char) :=
  if note < 12 then none
  else some (displayLoop (note % 12) ((note - 12) / 12) noteNames .C)

/-! ## Unsigned-integer text parsing (`usize::from_str`, `u8::from_str`)

Rust's `FromStr` for unsigned integers: an optional leading `+`, then at
least one decimal digit and nothing else; a value exceeding the type's
maximum is a `ParseIntError` (not a panic). -/

/-- Digits-only value accumulator. -/
def digitsFold (s : List Char) : Nat :=
  s.foldl (fun a c => a * 10 + (c.toNat - 48)) 0

/-- `from_str` for an unsigned integer with maximum value `max`. -/
def parseUnsigned (max : Nat) (s : List Char) : Option Nat :=
  let body := match s with
    | '+' :: rest => rest
    | _ => s
  if body.isEmpty then none
  else if body.all (fun c => '0' ≤ c ∧ c ≤ '9') then
    let v := digitsFold body
    if v ≤ max then some v else none
  else none

/-- `usize::from_str` (64-bit). -/
def parseUsize : List Char → Option Nat := parseUnsigned (2 ^ 64 - 1)

/-- `u8::from_str`. -/
def parseU8 : List Char → Option Nat := parseUnsigned 255

/-! ## `str::split` on a one-character pattern -/

/-- Rust's `str::split(pat)` for a single-character pattern: the list of
(possibly empty) fields between occurrences of `c`; never empty. -/
def split1 (c : Char) : List Char → List (List Char)
| [] => [[]]
| x :: xs =>
  if x = c then [] :: split1 c xs
  else
    match split1 c xs with
    | h :: t => (x :: h) :: t
    | [] => [[x]]

/-! ## Text key parser — `src/schema.rs` (`Device::parse_key`, lines 60-123) -/

/-- `schema::Range` (usize fields). -/
structure KRange where
  lo : Nat
  hi : Nat
  offset : Option Nat
deriving DecidableEq, Repr

/-- `schema::Mode` (only the parts `parse_key` touches). -/
structure KMode where
  sysex : List Nat
deriving DecidableEq, Repr

/-- `schema::Parameter`. -/
structure KParameter where
  sysex : List Nat
  range : Option KRange
  modes : Option (List (List Char × KMode))
deriving DecidableEq, Repr

/-- `devices::DeviceError` cases reachable from `parse_key`, plus the
error produced by the `usize::from_str(..)?` propagation. -/
inductive KeyErr where
| EmptyParamKey
| UnknownParameter
| BadIndexParameter
| BadModeParameter
| IntParse
deriving DecidableEq, Repr

/-- `schema::QueryKey`. -/
structure KQueryKey where
  name : List Char
  param : KParameter
  index : Option Nat
  mode : Option KMode
deriving DecidableEq, Repr

/-- The index-validation `match` of `parse_key` (src/schema.rs:89-97):
`(Some(value), Some(range))` guarded by `lo <= value && value <= hi`
keeps the index, `(None, None)` keeps nothing, anything else is
`BadIndexParameter`. -/
def checkIndex (indexVal : Option Nat) (range : Option KRange) :
    Except KeyErr (Option Nat) :=
  match indexVal, range with
  | some v, some r =>
    if r.lo ≤ v ∧ v ≤ r.hi then .ok (some v) else .error .BadIndexParameter
  | none, none => .ok none
  | _, _ => .error .BadIndexParameter

/-- The mode-validation `match` of `parse_key` (src/schema.rs:99-115):
a supplied mode is looked up in the parameter's mode map, `(None, None)`
keeps nothing, anything else is `BadModeParameter`. -/
def checkMode (modeStr : Option (List Char))
    (modes : Option (List (List Char × KMode))) :
    Except KeyErr (Option KMode) :=
  match modeStr, modes with
  | some m, some ms =>
    match ms.lookup m with
    | some md => .ok (some md)
    | none => .error .BadModeParameter
  | none, none => .ok none
  | _, _ => .error .BadModeParameter

/-- `Device::parse_key` (src/schema.rs:60-123). `seq_parts` is the `/`
split of the whole key, `mode_parts` its `:` split; `name` is always
`seq_parts[0]`; the `(2, 2)` arm re-splits `seq_parts[1]` on `:`. -/
def parse_key (parameters : List (List Char × KParameter)) (paramKey : List Char) :
    Except KeyErr KQueryKey :=
  let seqParts := split1 '/' paramKey
  match seqParts.head? with
  | none => .error .EmptyParamKey
  | some name =>
    let modeParts := split1 ':' paramKey
    let arrangement : Except KeyErr (Option (List Char) × Option (List Char)) :=
      match seqParts.length, modeParts.length with
      | 1, 1 => .ok (none, none)
      | 2, 1 => .ok (seqParts.get? 1, none)
      | 1, 2 => .ok (none, modeParts.get? 1)
      | 2, 2 =>
        let modeParts2 := split1 ':' ((seqParts.get? 1).getD [])
        .ok (modeParts2.get? 0, modeParts2.get? 1)
      | _, _ => .error .UnknownParameter
    match arrangement with
    | .error e => .error e
    | .ok (idxStr, modeStr) =>
      match parameters.lookup name with
      | none => .error .UnknownParameter
      | some param =>
        let indexVal : Except KeyErr (Option Nat) :=
          match idxStr with
          | some s =>
            match parseUsize s with
            | some v => .ok (some v)
            | none => .error .IntParse
          | none => .ok none
        match indexVal with
        | .error e => .error e
        | .ok iv =>
          match checkIndex iv param.range with
          | .error e => .error e
          | .ok index =>
            match checkMode modeStr param.modes with
            | .error e => .error e
            | .ok mode =>
              .ok { name := name, param := param, index := index, mode := mode }

/-! ## Bounds converter, text → wire — `src/schema/mod.rs` (`Bounds::convert`, lines 209-236) -/

/-- `schema::NoteSeq`. -/
structure KNoteSeq where
  maxLen : Nat
  offset : Option Int
deriving DecidableEq, Repr

/-- `schema::Bounds` (tagged; the YAML untagged-union concern is a loading
matter, the in-memory value is one of these three). -/
inductive SchBounds where
| Values (values : List (List Char × Nat))
| Range (range : KRange)
| NoteSeq (noteseq : KNoteSeq)
deriving DecidableEq, Repr

/-- Error results of `Bounds::convert`; `Panic` marks a Rust
arithmetic-overflow panic (`val - offset` underflow on `usize`,
`i8` overflow on the note offset). -/
inductive ConvErr where
| UnknownValue
| ValueOutOfBound
| IntParse
| NoteParse
| Panic
deriving DecidableEq, Repr

/-- `n as i8`: the low byte reinterpreted as a signed value. -/
def asI8 (n : Nat) : Int :=
  (n % 256 : Nat) - (if n % 256 < 128 then 0 else 256)

/-- The note loop of `Bounds::convert`'s `NoteSeq` arm:
`(MidiNote::from_str(v)?.note as i8 + offset) as u8` per element. -/
def convertNotes (offset : Int) : List (List Char) → Except ConvErr (List Nat)
| [] => .ok []
| v :: rest =>
  match midiNote_from_str v with
  | none => .error .NoteParse
  | some note =>
    let s := asI8 note + offset
    if s < -128 ∨ 127 < s then .error .Panic
    else
      match convertNotes offset rest with
      | .ok ns => .ok (((s.emod 256).toNat) :: ns)
      | .error e => .error e

/-- `Bounds::convert` (src/schema/mod.rs:209-236): `Values` is an exact
name lookup; `Range` parses a `usize`, accepts iff `lo <= v <= hi` and
emits `(val - offset) as u8` (offset absent ⇒ `val as u8`); `NoteSeq`
converts each comma-separated token through the note codec. -/
def convert (b : SchBounds) (value : List Char) : Except ConvErr (List Nat) :=
  match b with
  | .Values values =>
    match values.lookup value with
    | some v => .ok [v]
    | none => .error .UnknownValue
  | .Range range =>
    match parseUsize value with
    | none => .error .IntParse
    | some val =>
      if range.lo ≤ val ∧ val ≤ range.hi then
        match range.offset with
        | some offset =>
          if val < offset then .error .Panic else .ok [(val - offset) % 256]
        | none => .ok [val % 256]
      else .error .ValueOutOfBound
  | .NoteSeq noteseq =>
    convertNotes (noteseq.offset.getD 0) (split1 ',' value)

/-! ## Bounds converter, wire → text and text → wire — `src/devices/mod.rs`
(`Bounds`, `bound_str` lines 375-407, `bound_codes` lines 409-451) -/

/-- `devices::Bounds`: `Discrete` pairs, `Range(offset, (lo, hi))`
("Raw value offset and display value bounds (Low to High, inclusive)"),
`NoteSeq(offset)`. All fields are `u8`. -/
inductive DBounds where
| Discrete (values : List (Nat × List Char))
| Range (offset : Nat) (lo : Nat) (hi : Nat)
| NoteSeq (offset : Nat)
deriving DecidableEq, Repr

/-- The `NoteSeq` arm of `bound_str`: each byte is displayed as
`MidiNote { note: *note - offset }` — a `u8` subtraction (panic when
`note < offset`) followed by `Display` (panic when the result is
below 12); rendered notes are joined with `","`. -/
def boundStrNotes (offset : Nat) : List Nat → Except Unit (List (List Char))
| [] => .ok []
| note :: rest =>
  if note < offset then .error ()
  else
    match midiNoteDisplay (note - offset) with
    | none => .error ()
    | some s =>
      match boundStrNotes offset rest with
      | .ok ss => .ok (s :: ss)
      | .error e => .error e

/-- `Vec<String>::join(",")`. -/
def joinComma : List (List Char) → List Char
| [] => []
| [s] => s
| s :: rest => s ++ ',' :: joinComma rest

/-- `bound_str` (src/devices/mod.rs:375-407): wire value(s) → display
string, `None` when nothing matches. `.error ()` marks a panic
(`first + offset` overflowing `u8`, or the `NoteSeq` arm's subtraction
or `Display` underflow). Note that the `Range` arm compares the raw
wire byte `first` against `lo..=hi` before adding the offset. -/
def bound_str (bounds : DBounds) (vcode : List Nat) :
    Except Unit (Option (List Char)) :=
  match vcode.head? with
  | none => .ok none
  | some first =>
    match bounds with
    | .Discrete values =>
      .ok ((values.find? (fun v => v.1 = first)).map (fun v => v.2))
    | .Range offset lo hi =>
      if lo ≤ first ∧ first ≤ hi then
        if 255 < first + offset then .error ()
        else .ok (some (natRepr (first + offset)))
      else .ok none
    | .NoteSeq offset =>
      match boundStrNotes offset vcode with
      | .ok ss => .ok (some (joinComma ss))
      | .error e => .error e

/-- Error results of `bound_codes`; `Panic` marks the
`bound_ids.get(0).unwrap()` on an empty list, a `u8` subtraction
underflow (`val - offset`) or addition overflow (`note + offset`). -/
inductive CodeErr where
| MissingValue
| TooManyValues
| UnknownValue
| ValueOutOfBound
| IntParse
| NoteParse
| Panic
deriving DecidableEq, Repr

/-- The `NoteSeq` arm of `bound_codes`:
`MidiNote::from_str(b_id)?.note + offset` per element. -/
def boundCodesNotes (offset : Nat) : List (List Char) → Except CodeErr (List Nat)
| [] => .ok []
| bid :: rest =>
  match midiNote_from_str bid with
  | none => .error .NoteParse
  | some note =>
    if 255 < note + offset then .error .Panic
    else
      match boundCodesNotes offset rest with
      | .ok ns => .ok ((note + offset) :: ns)
      | .error e => .error e

/-- `bound_codes` (src/devices/mod.rs:409-451): display string(s) → wire
value(s). Arity is validated first against `reqs = (min, max)`; then
`Discrete` is an exact name lookup, `Range` parses a `u8`, accepts iff
`lo <= val <= hi` and emits `val - offset`, `NoteSeq` maps the note
codec and adds the offset. -/
def bound_codes (bounds : DBounds) (boundIds : List (List Char))
    (reqs : Nat × Nat) : Except CodeErr (List Nat) :=
  if boundIds.length < reqs.1 then .error .MissingValue
  else if reqs.2 < boundIds.length then .error .TooManyValues
  else
    match bounds with
    | .Discrete values =>
      match boundIds.head? with
      | none => .error .Panic
      | some bid =>
        match values.find? (fun v => v.2 = bid) with
        | some v => .ok [v.1]
        | none => .error .UnknownValue
    | .Range offset lo hi =>
      match boundIds.head? with
      | none => .error .Panic
      | some bid =>
        match parseU8 bid with
        | none => .error .IntParse
        | some val =>
          if lo ≤ val ∧ val ≤ hi then
            if val < offset then .error .Panic else .ok [val - offset]
          else .error .ValueOutOfBound
    | .NoteSeq offset => boundCodesNotes offset boundIds

/-! ## MicroBrute device — `src/devices/microbrute.rs` -/

/-- `MicrobruteGlobals`. -/
inductive MicrobruteGlobals where
| KeyNotePriority
| KeyVelocityResponse
| MidiSendChan
| MidiRecvChan
| LfoKeyRetrig
| EnvLegatoMode
| BendRange
| Gate
| Sync
| SeqPlay
| SeqKeyRetrig
| SeqNextSeq
| SeqStepOn
| SeqStep
| Seq (idx : Nat)
deriving DecidableEq, Repr

/-- Declaration order as iterated by strum's `EnumIter`
(the payload variant is iterated with the default payload `Seq(0)`). -/
def microbruteGlobalsList : List MicrobruteGlobals :=
  [.KeyNotePriority, .KeyVelocityResponse, .MidiSendChan, .MidiRecvChan,
   .LfoKeyRetrig, .EnvLegatoMode, .BendRange, .Gate, .Sync, .SeqPlay,
   .SeqKeyRetrig, .SeqNextSeq, .SeqStepOn, .SeqStep, .Seq 0]

/-- `MicrobruteGlobals::sysex_data_code` (src/devices/microbrute.rs:99-117). -/
def sysexDataCode : MicrobruteGlobals → Nat × Nat
| .KeyNotePriority => (0x01, 0x0b)
| .KeyVelocityResponse => (0x01, 0x11)
| .MidiSendChan => (0x01, 0x07)
| .MidiRecvChan => (0x01, 0x05)
| .LfoKeyRetrig => (0x01, 0x0f)
| .EnvLegatoMode => (0x01, 0x0d)
| .BendRange => (0x01, 0x2c)
| .Gate => (0x01, 0x36)
| .Sync => (0x01, 0x3c)
| .SeqPlay => (0x01, 0x2e)
| .SeqKeyRetrig => (0x01, 0x34)
| .SeqNextSeq => (0x01, 0x32)
| .SeqStepOn => (0x01, 0x2a)
| .SeqStep => (0x01, 0x38)
| .Seq _ => (0x23, 0x3a)

/-- strum `AsRefStr`: the variant's name. -/
def MicrobruteGlobals.baseName : MicrobruteGlobals → List Char
| .KeyNotePriority => ['K','e','y','N','o','t','e','P','r','i','o','r','i','t','y']
| .KeyVelocityResponse =>
  ['K','e','y','V','e','l','o','c','i','t','y','R','e','s','p','o','n','s','e']
| .MidiSendChan => ['M','i','d','i','S','e','n','d','C','h','a','n']
| .MidiRecvChan => ['M','i','d','i','R','e','c','v','C','h','a','n']
| .LfoKeyRetrig => ['L','f','o','K','e','y','R','e','t','r','i','g']
| .EnvLegatoMode => ['E','n','v','L','e','g','a','t','o','M','o','d','e']
| .BendRange => ['B','e','n','d','R','a','n','g','e']
| .Gate => ['G','a','t','e']
| .Sync => ['S','y','n','c']
| .SeqPlay => ['S','e','q','P','l','a','y']
| .SeqKeyRetrig => ['S','e','q','K','e','y','R','e','t','r','i','g']
| .SeqNextSeq => ['S','e','q','N','e','x','t','S','e','q']
| .SeqStepOn => ['S','e','q','S','t','e','p','O','n']
| .SeqStep => ['S','e','q','S','t','e','p']
| .Seq _ => ['S','e','q']

/-- `impl Display for MicrobruteGlobals` (src/devices/microbrute.rs:88-96):
the variant name, plus `/{idx + 1}` for `Seq`. -/
def MicrobruteGlobals.displayName (p : MicrobruteGlobals) : List Char :=
  match p with
  | .Seq idx => p.baseName ++ '/' :: natRepr (idx + 1)
  | _ => p.baseName

/-- `bounds` (src/devices/microbrute.rs:204-229). -/
def mbBounds : MicrobruteGlobals → DBounds
| .KeyNotePriority =>
  .Discrete [(0, ['L','a','s','t','N','o','t','e']),
             (1, ['L','o','w','N','o','t','e']),
             (2, ['H','i','g','h','N','o','t','e'])]
| .KeyVelocityResponse =>
  .Discrete [(0, ['L','o','g','a','r','i','t','h','m','i','c']),
             (1, ['E','x','p','o','n','e','n','t','i','a','l']),
             (2, ['L','i','n','e','a','r'])]
| .MidiRecvChan => .Range 1 1 16
| .MidiSendChan => .Range 1 1 16
| .LfoKeyRetrig => .Discrete [(0, ['O','f','f']), (1, ['O','n'])]
| .EnvLegatoMode => .Discrete [(0, ['O','f','f']), (1, ['O','n'])]
| .BendRange => .Range 1 1 12
| .Gate =>
  .Discrete [(1, ['S','h','o','r','t']),
             (2, ['M','e','d','i','u','m']),
             (3, ['L','o','n','g'])]
| .Sync =>
  .Discrete [(0, ['A','u','t','o']),
             (1, ['I','n','t','e','r','n','a','l']),
             (2, ['E','x','t','e','r','n','a','l'])]
| .SeqPlay => .Discrete [(0, ['H','o','l','d']), (1, ['N','o','t','e','O','n'])]
| .SeqKeyRetrig =>
  .Discrete [(0, ['R','e','s','e','t']),
             (1, ['L','e','g','a','t','o']),
             (2, ['N','o','n','e'])]
| .SeqNextSeq =>
  .Discrete [(0, ['E','n','d']),
             (1, ['R','e','s','e','t']),
             (2, ['C','o','n','t','i','n','u','e'])]
| .SeqStep =>
  .Discrete [(0x04, ['1','/','4']),
             (0x08, ['1','/','8']),
             (0x10, ['1','/','1','6']),
             (0x20, ['1','/','3','2'])]
| .SeqStepOn => .Discrete [(0, ['C','l','o','c','k']), (1, ['G','a','t','e'])]
| .Seq _ => .NoteSeq 24

/-- `bound_reqs` (src/devices/microbrute.rs:231-236). -/
def boundReqs : MicrobruteGlobals → Nat × Nat
| .Seq _ => (0, 64)
| _ => (1, 1)

/-- `MICROBRUTE` vendor + device prefix. -/
def MICROBRUTE : List Nat := [0x00, 0x20, 0x6b, 0x05]

/-- `sysex(vendor, parts)` (src/devices/mod.rs:453-462): `0xf0`, vendor
bytes, all part bytes, `0xf7`. -/
def sysexWrap (vendor : List Nat) (parts : List (List Nat)) : List Nat :=
  0xf0 :: (vendor ++ parts.flatten) ++ [0xf7]

/-- One iteration of the `Seq` block loop of `MicroBruteDevice::update`
(src/devices/microbrute.rs:304-322), acting on the state
(messages sent so far, remaining `seqlen`, `msg_id`). -/
def updateSeqBlock (seqIdx : Nat) (padded : List Nat)
    (st : List (List Nat) × Nat × Nat) (block : Nat) :
    List (List Nat) × Nat × Nat :=
  let offset := 0x20 * block
  let msg := sysexWrap MICROBRUTE
    [[0x01, st.2.2 % 256],
     [(sysexDataCode (.Seq seqIdx)).1, (sysexDataCode (.Seq seqIdx)).2],
     [seqIdx, offset % 256, if 0x20 < st.2.1 then 0x20 else st.2.1],
     ((padded.drop offset).take 0x20)]
  (st.1 ++ [msg], (if 0x20 < st.2.1 then st.2.1 - 0x20 else st.2.1), st.2.2 + 1)

/-- The `Seq` arm of `MicroBruteDevice::update`
(src/devices/microbrute.rs:297-323): `seqlen = bcodes.len() as u8`,
right-pad `bcodes` with `0x00` to 64 bytes, then — as written in the
source — loop `for block in 0..1`, i.e. a single iteration sending a
single 32-byte block. -/
def updateSeq (seqIdx : Nat) (msgId : Nat) (bcodes : List Nat) :
    List (List Nat) :=
  let seqlen := bcodes.length % 256
  let padded := bcodes ++ List.replicate (64 - bcodes.length) 0
  ((List.range 1).foldl (updateSeqBlock seqIdx padded) ([], seqlen, msgId)).1

/-- `MicroBruteDevice::update` (src/devices/microbrute.rs:291-335) as the
list of wire messages it sends: values are converted through
`bound_codes` first; a conversion error sends nothing and is returned
as-is. -/
def microbrute_update (param : MicrobruteGlobals) (msgId : Nat)
    (valueIds : List (List Char)) : Except CodeErr (List (List Nat)) :=
  match bound_codes (mbBounds param) valueIds (boundReqs param) with
  | .error e => .error e
  | .ok bcodes =>
    match param with
    | .Seq seqIdx => .ok (updateSeq seqIdx msgId bcodes)
    | p =>
      match bcodes.head? with
      | none => .error .MissingValue
      | some b =>
        .ok [sysexWrap MICROBRUTE
          [[0x01, msgId % 256], [(sysexDataCode p).1, (sysexDataCode p).2], [b]]]

/-- `into_param` (src/devices/microbrute.rs:368-378): finds the
parameter whose data code's second byte equals `msg[3]`; for `Seq` the
index is read from `msg[4]`. The unchecked indexing panics —
`.error ()` — on a buffer shorter than required. -/
def into_param (msg : List Nat) : Except Unit (Option MicrobruteGlobals) :=
  match msg.get? 3 with
  | none => .error ()
  | some b3 =>
    match microbruteGlobalsList.find? (fun p => (sysexDataCode p).2 = b3) with
    | none => .ok none
    | some p =>
      match p with
      | .Seq _ =>
        match msg.get? 4 with
        | none => .error ()
        | some b4 => .ok (some (.Seq b4))
      | q => .ok (some q)

/-- The note-rendering loop of `decode`'s `Seq` arm
(src/devices/microbrute.rs:344-355): stop at `0`, `0x7f` is `"_"`,
a value below 24 is `"?{v}"`, otherwise `MidiNote { note: v - 24 }`
is displayed — whose `Display` panics (`.error ()`) for `v < 36`. -/
def seqNotesRender : List Nat → Except Unit (List (List Char))
| [] => .ok []
| v :: rest =>
  if v = 0 then .ok []
  else if v = 0x7f then
    match seqNotesRender rest with
    | .ok ss => .ok (['_'] :: ss)
    | .error e => .error e
  else if v < 24 then
    match seqNotesRender rest with
    | .ok ss => .ok (('?' :: natRepr v) :: ss)
    | .error e => .error e
  else
    match midiNoteDisplay (v - 24) with
    | none => .error ()
    | some s =>
      match seqNotesRender rest with
      | .ok ss => .ok (s :: ss)
      | .error e => .error e

/-- `LinkedHashMap::entry(k).or_insert(vec![])` followed by pushes:
append `vs` to the entry's list, inserting the key if absent. -/
def entryAppend (acc : List (List Char × List (List Char)))
    (key : List Char) (vs : List (List Char)) :
    List (List Char × List (List Char)) :=
  if acc.any (fun e => e.1 = key) then
    acc.map (fun e => if e.1 = key then (e.1, e.2 ++ vs) else e)
  else acc ++ [(key, vs)]

/-- `LinkedHashMap::insert` (replace, keeping position, or append). -/
def insertReplace (acc : List (List Char × List (List Char)))
    (key : List Char) (vs : List (List Char)) :
    List (List Char × List (List Char)) :=
  if acc.any (fun e => e.1 = key) then
    acc.map (fun e => if e.1 = key then (e.1, vs) else e)
  else acc ++ [(key, vs)]

/-- `decode` (src/devices/microbrute.rs:338-366): the reply decoder
callback, acting on the caller's accumulator map. `.error ()` is a Rust
panic (unchecked `msg[3]`, `msg[4]`, `msg[7..]` indexing, or a `u8`
underflow while rendering). -/
def microbrute_decode (msg : List Nat)
    (resultMap : List (List Char × List (List Char))) :
    Except Unit (List (List Char × List (List Char))) :=
  match into_param msg with
  | .error e => .error e
  | .ok none => .ok resultMap
  | .ok (some param) =>
    match param with
    | .Seq _ =>
      if msg.length < 7 then .error ()
      else
        match seqNotesRender (msg.drop 7) with
        | .error e => .error e
        | .ok notes => .ok (entryAppend resultMap param.displayName notes)
    | p =>
      match msg.get? 4 with
      | none => .error ()
      | some b4 =>
        match bound_str (mbBounds p) [b4] with
        | .error e => .error e
        | .ok (some bound) => .ok (insertReplace resultMap p.displayName [bound])
        | .ok none => .ok resultMap

/-! ## Message serializer — `src/parse.rs` (`Token`, `Buffer`, `AST::to_sysex`)

A `Token` carries the schema bytes it emits; `v.sysex.slice(form)` is the
schema-stored byte string for the message form in use, carried here as the
token's `bytes` field. -/

/-- `parse::Token`. -/
inductive PToken where
| sysex
| vendor (bytes : List Nat)
| device (bytes : List Nat) (idx : Nat)
| control (bytes : List Nat)
| indexedControl (bytes : List Nat) (idx : Nat)
| value (bytes : List Nat)
| inRange (idx : Int)
| midiNotes (startOffset : Nat) (notes : List Nat)
deriving DecidableEq, Repr

/-- `parse::Buffer`: committed `head` bytes plus `tail` bytes kept in
reverse order. -/
structure SBuffer where
  head : List Nat
  tail : List Nat
deriving DecidableEq, Repr

/-- `Buffer::default()`. -/
def SBuffer.empty : SBuffer := { head := [], tail := [] }

/-- `impl Into<Vec<u8>> for Buffer` (src/parse.rs:73-79):
`head ++ tail.reverse()`. -/
def buffer_into (b : SBuffer) : List Nat := b.head ++ b.tail.reverse

/-- `Token::to_sysex` (src/parse.rs:85-114): `Sysex` pushes `0xf0` to the
head and `0xf7` to the tail; every other token only appends to the head
(`notes.len() as u8` and `idx as u8` are the Rust casts). -/
def token_to_sysex (t : PToken) (b : SBuffer) : SBuffer :=
  match t with
  | .sysex => { head := b.head ++ [0xf0], tail := b.tail ++ [0xf7] }
  | .vendor bs => { b with head := b.head ++ bs }
  | .device bs idx => { b with head := b.head ++ bs ++ [idx] }
  | .control bs => { b with head := b.head ++ bs }
  | .indexedControl bs idx => { b with head := b.head ++ bs ++ [idx] }
  | .value bs => { b with head := b.head ++ bs }
  | .inRange idx => { b with head := b.head ++ [(idx.emod 256).toNat] }
  | .midiNotes so notes =>
    { b with head := b.head ++ so :: (notes.length % 256) :: notes }

/-- The command tree: `indextree`'s arena flattened into an owned rooted
tree (each node a token and its ordered children). -/
inductive STree where
| node (t : PToken) (children : List STree)

mutual

/-- `AST::to_sysex_inner` (src/parse.rs:144-159): apply the node's token
to the buffer; a leaf finalizes `buffer.into()` into the output; an only
child continues with the same buffer; each of several children gets its
own clone of the buffer. -/
def ser_tree : STree → SBuffer → List (List Nat)
| .node t cs, buf =>
  let buf := token_to_sysex t buf
  match cs with
  | [] => [buffer_into buf]
  | c :: rest => ser_forest (c :: rest) buf

/-- The child loop of `AST::to_sysex_inner`. -/
def ser_forest : List STree → SBuffer → List (List Nat)
| [], _ => []
| c :: cs, buf => ser_tree c buf ++ ser_forest cs buf

end

/-- `AST::to_sysex` (src/parse.rs:137-142): runs the inner walk on an
empty buffer and wraps the collected messages in `Ok`. -/
def to_sysex (t : STree) : Except Unit (List (List Nat)) :=
  .ok (ser_tree t SBuffer.empty)

mutual

/-- Leaf count of a tree. -/
def tree_leaves : STree → Nat
| .node _ [] => 1
| .node _ (c :: cs) => forest_leaves (c :: cs)

/-- Leaf count of a forest. -/
def forest_leaves : List STree → Nat
| [] => 0
| c :: cs => tree_leaves c + forest_leaves cs

end

/-- Whether a token is the `Sysex` root marker. -/
def PToken.isSysex : PToken → Bool
| .sysex => true
| _ => false

mutual

/-- No token in the tree is the `Sysex` root marker. -/
def tree_no_sysex : STree → Bool
| .node t cs => !t.isSysex && forest_no_sysex cs

/-- No token in the forest is the `Sysex` root marker. -/
def forest_no_sysex : List STree → Bool
| [] => true
| c :: cs => tree_no_sysex c && forest_no_sysex cs

end

/-! ## Wire decoder — `src/parse.rs` (`ParseError`, `PCTX`, `SysexReply`)

`PCTX` (src/parse.rs:184-225) is the read cursor over the received
message. The vendor level (src/parse.rs:259-267) is live source; the
device, control and bounds levels are only declared there (the `nodes`
descent is an empty stub, the implementation commented out), so they are
modelled from the spec below. -/

/-- `parse::ParseError` (decoder-reachable cases). -/
inductive PErr where
| Expected (bytes : List Nat)
| UnknownVendor
| UnknownDevice
| UnknownControl (text : List Nat)
| NoMatchingBounds
| ShortRead
| EmptyMessage
deriving DecidableEq, Repr

/-- `parse::PCTX`: the message and the current read position. -/
structure PCTX where
  message : List Nat
  pos : Nat
deriving DecidableEq, Repr

/-- `PCTX::accept` (src/parse.rs:190-197): if the remaining input starts
with `token`, advance past it and answer `true`; otherwise answer
`false` leaving the position unchanged. -/
def pctx_accept (p : PCTX) (token : List Nat) : Bool × PCTX :=
  if token.isPrefixOf (p.message.drop p.pos) then
    (true, { p with pos := p.pos + token.length })
  else (false, p)

/-- `PCTX::expect` (src/parse.rs:199-205). -/
def pctx_expect (p : PCTX) (token : List Nat) : Except PErr PCTX :=
  match pctx_accept p token with
  | (true, p') => .ok p'
  | (false, _) => .error (.Expected token)

/-- `PCTX::next_byte` (src/parse.rs:216-223). -/
def pctx_next_byte (p : PCTX) : Except PErr (Nat × PCTX) :=
  if h : p.pos < p.message.length then
    .ok (p.message.get ⟨p.pos, h⟩, { p with pos := p.pos + 1 })
  else .error .ShortRead

/-- `PCTX::take` (src/parse.rs:207-214). Note the source returns the
whole remaining slice (`slice.to_vec()`), not its first `length` bytes,
while advancing by `length`. -/
def pctx_take (p : PCTX) (length : Nat) : Except PErr (List Nat × PCTX) :=
  let slice := p.message.drop p.pos
  if slice.length < length then .error .ShortRead
  else .ok (slice, { p with pos := p.pos + length })

/-! Schema model for the decoder (`src/schema2.rs` shapes). The vendor's
wire prefix is form-dependent schema data (`sysex.slice(form)`); the
decoder always runs with `Form::Reply`, so each node carries the
reply-form byte string directly. -/

/-- `schema::Value` (a named wire byte). -/
structure SValue where
  sysex : Nat
deriving DecidableEq, Repr

/-- `schema::Range` (isize fields). -/
structure SRange where
  lo : Int
  hi : Int
  offset : Option Int
deriving DecidableEq, Repr

/-- `schema::MidiNotes`. -/
structure SMidiNotes where
  maxLen : Nat
  offset : Option Int
deriving DecidableEq, Repr

/-- `schema::Bounds`. -/
inductive SBnd where
| value (v : SValue)
| range (r : SRange)
| midiNotes (m : SMidiNotes)
deriving DecidableEq, Repr

/-- `schema::Control`. -/
structure SControl where
  sysex : List Nat
  bounds : List SBnd
deriving DecidableEq, Repr

/-- `schema::IndexedControl`. -/
structure SIndexedControl where
  sysex : List Nat
  bounds : List SBnd
deriving DecidableEq, Repr

/-- `schema::Device`. -/
structure SDevice where
  sysex : List Nat
  controls : List SControl
  indexedControls : List SIndexedControl
deriving DecidableEq, Repr

/-- `schema::Vendor` (with the reply-form wire prefix). -/
structure SVendor where
  sysex : List Nat
  devices : List SDevice
deriving DecidableEq, Repr

/-- A decoded token (the node pushed into the reply AST at each level). -/
inductive RToken where
| vendor (prefixBytes : List Nat)
| device (sysexId : Nat)
| control (code : List Nat)
| indexedControl (code : List Nat) (idx : Nat)
| value (b : Nat)
| inRange (v : Int)
| midiNotes (startOffset : Nat) (notes : List Nat)
deriving DecidableEq, Repr

/-- Modelled from the spec: the `Values` attempt of the bounds level
(the decoder's step 5; the in-tree implementation is commented out in
src/parse.rs). Reads one byte and matches it exactly; a failed match
does not restore the consumed byte. -/
def valuesTry (v : SValue) (p : PCTX) : Option RToken × PCTX :=
  match pctx_next_byte p with
  | .ok (b, p') => (if b = v.sysex then some (.value b) else none, p')
  | .error _ => (none, p)

/-- Modelled from the spec: the `Range` attempt of the bounds level —
read one byte, validate `lo <= v <= hi`, add the offset. -/
def rangeTry (r : SRange) (p : PCTX) : Option RToken × PCTX :=
  match pctx_next_byte p with
  | .ok (b, p') =>
    (if r.lo ≤ (b : Int) ∧ (b : Int) ≤ r.hi then
      some (.inRange ((b : Int) + r.offset.getD 0))
    else none, p')
  | .error _ => (none, p)

/-- Modelled from the spec: the note-sequence payload attempt — take
`seqLength` bytes (per `PCTX::take`, the returned vector is the whole
remaining slice) and apply the per-note offset,
`(z as i16 + pitch_offset) as u8`. -/
def noteSeqTry (startOffset seqLength : Nat) (m : SMidiNotes) (p : PCTX) :
    Option RToken × PCTX :=
  match pctx_take p seqLength with
  | .ok (bytes, p') =>
    (some (.midiNotes startOffset
      (bytes.map (fun z => (((z : Int) + m.offset.getD 0).emod 256).toNat))), p')
  | .error _ => (none, p)

/-- Modelled from the spec: the bounds level (decoder step 5) — try each
bound in declared order, first structural match wins, otherwise
`NoMatchingBounds`; the `MidiNotes` start-offset and length header bytes
are required reads (`ShortRead` if absent). -/
def boundsLevel (bounds : List SBnd) (p : PCTX) : Except PErr (RToken × PCTX) :=
  match bounds with
  | [] => .error .NoMatchingBounds
  | b :: rest =>
    match b with
    | .value v =>
      match valuesTry v p with
      | (some t, p') => .ok (t, p')
      | (none, p') => boundsLevel rest p'
    | .range r =>
      match rangeTry r p with
      | (some t, p') => .ok (t, p')
      | (none, p') => boundsLevel rest p'
    | .midiNotes m =>
      match pctx_next_byte p with
      | .error e => .error e
      | .ok (so, p₁) =>
        match pctx_next_byte p₁ with
        | .error e => .error e
        | .ok (len, p₂) =>
          match noteSeqTry so len m p₂ with
          | (some t, p') => .ok (t, p')
          | (none, p') => boundsLevel rest p'

/-- Modelled from the spec: the plain-control loop of the control level
(decoder step 4) — exact code match, then bounds. -/
def controlsLoop (controls : List SControl) (p : PCTX) :
    Option (Except PErr (List RToken × PCTX)) :=
  match controls with
  | [] => none
  | c :: rest =>
    match pctx_accept p c.sysex with
    | (true, p') =>
      some (match boundsLevel c.bounds p' with
        | .ok (t, p'') => .ok ([.control c.sysex, t], p'')
        | .error e => .error e)
    | (false, _) => controlsLoop rest p

/-- Modelled from the spec: the indexed-control loop of the control
level — exact code match, then one required index byte, then bounds. -/
def indexedLoop (controls : List SIndexedControl) (p : PCTX) :
    Option (Except PErr (List RToken × PCTX)) :=
  match controls with
  | [] => none
  | c :: rest =>
    match pctx_accept p c.sysex with
    | (true, p') =>
      some (match pctx_next_byte p' with
        | .error e => .error e
        | .ok (idx, p'') =>
          match boundsLevel c.bounds p'' with
          | .ok (t, p₃) => .ok ([.indexedControl c.sysex idx, t], p₃)
          | .error e => .error e)
    | (false, _) => indexedLoop rest p

/-- Modelled from the spec: the control level (decoder step 4) — plain
controls first, then indexed controls, otherwise `UnknownControl`. -/
def controlLevel (d : SDevice) (p : PCTX) : Except PErr (List RToken × PCTX) :=
  match controlsLoop d.controls p with
  | some r => r
  | none =>
    match indexedLoop d.indexedControls p with
    | some r => r
    | none => .error (.UnknownControl p.message)

/-- Modelled from the spec: the device level (decoder step 3) — try each
device's wire id; on match read the required device-sub-id, message-id
and context bytes (`ShortRead` when absent), then descend into the
controls; otherwise `UnknownDevice`. -/
def deviceLevel (devices : List SDevice) (p : PCTX) :
    Except PErr (List RToken × PCTX) :=
  match devices with
  | [] => .error .UnknownDevice
  | d :: rest =>
    match pctx_accept p d.sysex with
    | (true, p₁) =>
      (match pctx_next_byte p₁ with
      | .error e => .error e
      | .ok (sysexId, p₂) =>
        match pctx_next_byte p₂ with
        | .error e => .error e
        | .ok (_replyId, p₃) =>
          match pctx_next_byte p₃ with
          | .error e => .error e
          | .ok (_context, p₄) =>
            match controlLevel d p₄ with
            | .ok (ts, p₅) => .ok (.device sysexId :: ts, p₅)
            | .error e => .error e)
    | (false, _) => deviceLevel rest p

/-- `SysexReply::vendor` (src/parse.rs:259-267): try each vendor's
reply-form prefix in declared order; the first accepted prefix descends
into that vendor's devices; otherwise `UnknownVendor`. -/
def vendorLevel (vendors : List SVendor) (p : PCTX) :
    Except PErr (List RToken × PCTX) :=
  match vendors with
  | [] => .error .UnknownVendor
  | v :: rest =>
    match pctx_accept p v.sysex with
    | (true, p') =>
      (match deviceLevel v.devices p' with
      | .ok (ts, p'') => .ok (.vendor v.sysex :: ts, p'')
      | .error e => .error e)
    | (false, _) => vendorLevel rest p

/-- `SysexReply::parse` (src/parse.rs:241-249): empty input is
`EmptyMessage`, the frame must begin with `0xf0`, then the vendor
descent runs on the rest. -/
def sysex_parse (vendors : List SVendor) (message : List Nat) :
    Except PErr (List RToken) :=
  if message.isEmpty then .error .EmptyMessage
  else
    match pctx_expect { message := message, pos := 0 } [0xf0] with
    | .error e => .error e
    | .ok p =>
      match vendorLevel vendors p with
      | .ok (ts, _) => .ok ts
      | .error e => .error e

/-! ## Derived notions used by the claim statements -/

/-- The device used to exhibit the `"Name:Mode"` key-parsing slip: one
parameter named `Param` that has a mode named `Mode`. -/
def modalParams : List (List Char × KParameter) :=
  [(['P', 'a', 'r', 'a', 'm'],
    { sysex := [0x01, 0x3a],
      range := none,
      modes := some [(['M', 'o', 'd', 'e'], { sysex := [0x02] })] })]

/-- The device used for the C9 counterexample: one parameter named
`Knob` that has a mode named `Fast` and no index range. -/
def knobParams : List (List Char × KParameter) :=
  [(['K', 'n', 'o', 'b'],
    { sysex := [0x01],
      range := none,
      modes := some [(['F', 'a', 's', 't'], { sysex := [0x03] })] })]

/-- The text of a note: letter, optional sharp, single octave digit. -/
def noteText (nn : NoteName) (sharp : Bool) (oct : Nat) : List Char :=
  nn.char :: (if sharp then ['#'] else []) ++ [Char.ofNat (48 + oct)]

/-- The numeric value the spec assigns to a note:
`octave * 12 + pitch_class + 12`, the sharp adding 1. -/
def noteVal (nn : NoteName) (sharp : Bool) (oct : Nat) : Nat :=
  oct * 12 + (nn.val + if sharp then 1 else 0) + 12

/-- A letter/sharp pair names a canonical pitch class: a sharp is only
well-formed when the raised pitch class stays below 12 and is not itself
a plain letter of the table (excludes `E#`, `B#`). -/
def sharpOk (nn : NoteName) (sharp : Bool) : Bool :=
  !sharp || (decide (nn.val + 1 < 12) &&
    noteNames.all (fun m => decide (m.val ≠ nn.val + 1)))

/-- The three leaf children of the multi-leaf serialization example. -/
def exampleLeaves : List STree :=
  [.node (.value [0x10]) [], .node (.value [0x11]) [], .node (.value [0x12]) []]

/-- The multi-leaf serialization example: one shared 3-byte vendor
prefix, three leaf children. -/
def exampleTree : STree :=
  .node .sysex [.node (.vendor [0x41, 0x42, 0x43]) exampleLeaves]

/-! ## Serializer lemmas -/

/-- Every token appends to the buffer's head. -/
theorem token_head_ext (t : PToken) (b : SBuffer) :
    ∃ e, (token_to_sysex t b).head = b.head ++ e := by
  cases t with
  | sysex => exact ⟨[0xf0], rfl⟩
  | vendor bs => exact ⟨bs, rfl⟩
  | device bs idx => exact ⟨bs ++ [idx], by simp [token_to_sysex]⟩
  | control bs => exact ⟨bs, rfl⟩
  | indexedControl bs idx => exact ⟨bs ++ [idx], by simp [token_to_sysex]⟩
  | value bs => exact ⟨bs, rfl⟩
  | inRange idx => exact ⟨_, rfl⟩
  | midiNotes so notes => exact ⟨_, rfl⟩

/-- Only the `Sysex` token touches the buffer's tail. -/
theorem token_tail_eq (t : PToken) (b : SBuffer) (h : t.isSysex = false) :
    (token_to_sysex t b).tail = b.tail := by
  cases t <;> simp_all [token_to_sysex, PToken.isSysex]

mutual

/-- The serializer emits one message per leaf (tree part). -/
theorem ser_tree_length : ∀ (t : STree) (buf : SBuffer),
    (ser_tree t buf).length = tree_leaves t
| .node tok [], buf => by simp [ser_tree, tree_leaves]
| .node tok (c :: cs), buf => by
  simp only [ser_tree, tree_leaves]
  exact ser_forest_length (c :: cs) (token_to_sysex tok buf)

/-- The serializer emits one message per leaf (forest part). -/
theorem ser_forest_length : ∀ (cs : List STree) (buf : SBuffer),
    (ser_forest cs buf).length = forest_leaves cs
| [], _ => by simp [ser_forest, forest_leaves]
| c :: cs, buf => by
  simp only [ser_forest, forest_leaves, List.length_append]
  rw [ser_tree_length c buf, ser_forest_length cs buf]

end

mutual

/-- Below the root, every message keeps the shape
`buffer.head ++ extension ++ buffer.tail.reverse` (tree part). -/
theorem ser_tree_shape : ∀ (t : STree) (buf : SBuffer),
    tree_no_sysex t = true →
    ∀ m ∈ ser_tree t buf, ∃ e, m = (buf.head ++ e) ++ buf.tail.reverse
| .node tok [], buf => by
  intro h m hm
  simp only [ser_tree, List.mem_singleton] at hm
  obtain ⟨e, he⟩ := token_head_ext tok buf
  have hs : tok.isSysex = false := by
    simp only [tree_no_sysex, Bool.and_eq_true, Bool.not_eq_true'] at h
    exact h.1
  refine ⟨e, ?_⟩
  rw [hm, buffer_into, he, token_tail_eq tok buf hs]
| .node tok (c :: cs), buf => by
  intro h m hm
  simp only [ser_tree] at hm
  have hs : tok.isSysex = false := by
    simp only [tree_no_sysex, Bool.and_eq_true, Bool.not_eq_true'] at h
    exact h.1
  have hf : forest_no_sysex (c :: cs) = true := by
    simp only [tree_no_sysex, Bool.and_eq_true, Bool.not_eq_true'] at h
    exact h.2
  obtain ⟨e, he⟩ := token_head_ext tok buf
  obtain ⟨e2, he2⟩ := ser_forest_shape (c :: cs) (token_to_sysex tok buf) hf m hm
  refine ⟨e ++ e2, ?_⟩
  rw [he2, he, token_tail_eq tok buf hs]
  simp [List.append_assoc]

/-- Below the root, every message keeps the shape
`buffer.head ++ extension ++ buffer.tail.reverse` (forest part). -/
theorem ser_forest_shape : ∀ (cs : List STree) (buf : SBuffer),
    forest_no_sysex cs = true →
    ∀ m ∈ ser_forest cs buf, ∃ e, m = (buf.head ++ e) ++ buf.tail.reverse
| [], _ => by intro _ m hm; simp [ser_forest] at hm
| c :: cs, buf => by
  intro h m hm
  simp only [forest_no_sysex, Bool.and_eq_true] at h
  simp only [ser_forest, List.mem_append] at hm
  rcases hm with hm | hm
  · exact ser_tree_shape c buf h.1 m hm
  · exact ser_forest_shape cs buf h.2 m hm

end

mutual

/-- Every message emitted below a node starts with the header bytes
accumulated at that node (tree part). -/
theorem ser_tree_prefix : ∀ (t : STree) (buf : SBuffer),
    ∀ m ∈ ser_tree t buf, buf.head <+: m
| .node tok [], buf => by
  intro m hm
  simp only [ser_tree, List.mem_singleton] at hm
  obtain ⟨e, he⟩ := token_head_ext tok buf
  rw [hm, buffer_into, he]
  exact (List.prefix_append _ _).trans (List.prefix_append _ _)
| .node tok (c :: cs), buf => by
  intro m hm
  simp only [ser_tree] at hm
  obtain ⟨e, he⟩ := token_head_ext tok buf
  have h2 := ser_forest_prefix (c :: cs) (token_to_sysex tok buf) m hm
  rw [he] at h2
  exact (List.prefix_append _ _).trans h2

/-- Every message emitted below a node starts with the header bytes
accumulated at that node (forest part). -/
theorem ser_forest_prefix : ∀ (cs : List STree) (buf : SBuffer),
    ∀ m ∈ ser_forest cs buf, buf.head <+: m
| [], _ => by intro m hm; simp [ser_forest] at hm
| c :: cs, buf => by
  intro m hm
  simp only [ser_forest, List.mem_append] at hm
  rcases hm with hm | hm
  · exact ser_tree_prefix c buf m hm
  · exact ser_forest_prefix cs buf m hm

end

/-! ## Claim theorems -/

/-- C1: contrary to the claim, a 40-note sequence update does not produce
2 wire messages with block lengths 32 and 8 — the block loop of
`MicroBruteDevice::update` is written `for block in 0..1`, so exactly one
message is sent: its header is `(seq 0, offset 0, length 0x20)` and it
carries only the first 32 of the 64 padded note bytes; the second block
(offset 0x20, length 8) is never transmitted. Here the 40 notes are all
`C1` (wire byte `0x30` after the +24 offset of the `NoteSeq(24)` bound). -/
theorem forty_note_update_sends_single_block :
    (microbrute_update (.Seq 0) 1 (List.replicate 40 ['C', '1'])).map List.length
      = .ok 1 ∧
    microbrute_update (.Seq 0) 1 (List.replicate 40 ['C', '1'])
      = .ok [[0xf0, 0x00, 0x20, 0x6b, 0x05, 0x01, 0x01, 0x23, 0x3a, 0x00, 0x00,
              0x20] ++ List.replicate 32 0x30 ++ [0xf7]] := by
  constructor
  · rfl
  · rfl

/-- C3: contrary to the claim, `parse_key("Param:Mode")` does not resolve
the parameter under the name `Param`: `name` is taken from the `/` split
of the whole key, so for the `(1, 2)` arrangement the lookup runs on the
full string `"Param:Mode"` and fails with `UnknownParameter`, even
though a parameter `Param` with a mode `Mode` exists (first conjunct). -/
theorem name_mode_key_fails_resolution :
    (modalParams.lookup ['P', 'a', 'r', 'a', 'm']).isSome = true ∧
    parse_key modalParams
        (['P', 'a', 'r', 'a', 'm'] ++ ':' :: ['M', 'o', 'd', 'e'])
      = .error .UnknownParameter := by
  constructor
  · rfl
  · rfl

/-- C4: contrary to the claim, the `Range` round trip fails at the
boundary when the offset is nonzero (the wire-to-text direction of
`bound_str` compares the raw wire byte against the display bounds
`lo..=hi` instead of the offset-adjusted ones). With `lo = 1`,
`hi = 16`, `offset = 1` (the repository's MIDI-channel range):
decoding wire byte 16 yields `"17"`, which the text-to-wire direction
rejects as `ValueOutOfBound`, so `encode(decode(16)) ≠ 16`; and the
wire image of the display value `lo = 1` — byte 0 — is rejected by the
decode direction (with `None`, not `ValueOutOfBound`). -/
theorem range_offset_round_trip_fails_at_bound :
    bound_str (.Range 1 1 16) [16] = .ok (some ['1', '7']) ∧
    convert (.Range { lo := 1, hi := 16, offset := some 1 }) ['1', '7']
      = .error .ValueOutOfBound ∧
    convert (.Range { lo := 1, hi := 16, offset := some 1 }) ['1'] = .ok [0] ∧
    bound_str (.Range 1 1 16) [0] = .ok none := by
  refine ⟨rfl, rfl, rfl, rfl⟩

/-- C6: contrary to the claim, the reply decoder is not total on
arbitrary buffers: `into_param` indexes `msg[3]` (and `msg[4]` for a
sequence reply) unconditionally, so `decode` panics — modelled as
`.error ()` — on a truncated buffer instead of returning a decode
error, e.g. on the 1-byte buffer `[0x01]` and on the 4-byte buffer
`[0x01, 0x25, 0x23, 0x3a]` whose fourth byte selects the sequence
parameter. -/
theorem microbrute_decode_panics_on_truncated_input :
    microbrute_decode [0x01] [] = .error () ∧
    microbrute_decode [0x01, 0x25, 0x23, 0x3a] [] = .error () := by
  constructor
  · rfl
  · rfl

/-- Exhaustive check of the note round trip over letter/sharp/octave
combinations (letters indexed into `noteNames`, octaves 0-9). -/
theorem note_codec_enum_aux : ∀ i : Fin noteNames.length, ∀ sharp : Bool,
    ∀ oct : Fin 10,
    sharpOk (noteNames.get i) sharp = true →
    midiNote_from_str (noteText (noteNames.get i) sharp oct.val)
      = some (noteVal (noteNames.get i) sharp oct.val) ∧
    midiNoteDisplay (noteVal (noteNames.get i) sharp oct.val)
      = some (noteText (noteNames.get i) sharp oct.val) := by
  decide

/-- Exhaustive check of the byte round trip over the displayable range
12-131 (octaves 0-9). -/
theorem note_codec_byte_aux : ∀ b : Fin 132, 12 ≤ b.val →
    (midiNoteDisplay b.val).bind midiNote_from_str = some b.val := by
  decide

/-- C5: the note codec maps `<Letter>[#]<Octave>` to
`octave * 12 + pitch_class + 12` (`C=0, D=2, E=4, F=5, G=7, A=9, B=11`,
`#` adding 1): `"C0" → 12`, `"C#0" → 13`, `"C1" → 24`; for every
canonical letter/sharp pair and octave 0-9, `decode(encode(note)) = note`,
and for every byte in the displayable range 12-131,
`encode(decode(byte)) = byte`. -/
theorem note_codec_round_trip :
    (midiNote_from_str ['C', '0'] = some 12 ∧
      midiNote_from_str ['C', '#', '0'] = some 13 ∧
      midiNote_from_str ['C', '1'] = some 24) ∧
    (∀ (nn : NoteName) (sharp : Bool) (oct : Nat), oct ≤ 9 →
      sharpOk nn sharp = true →
      midiNote_from_str (noteText nn sharp oct) = some (noteVal nn sharp oct) ∧
      midiNoteDisplay (noteVal nn sharp oct) = some (noteText nn sharp oct)) ∧
    (∀ b : Nat, 12 ≤ b → b ≤ 131 →
      (midiNoteDisplay b).bind midiNote_from_str = some b) := by
  refine ⟨⟨rfl, rfl, rfl⟩, ?_, ?_⟩
  · intro nn sharp oct hoct hsharp
    have hmem : ∃ i : Fin noteNames.length, noteNames.get i = nn := by
      cases nn
      · exact ⟨⟨0, by decide⟩, rfl⟩
      · exact ⟨⟨1, by decide⟩, rfl⟩
      · exact ⟨⟨2, by decide⟩, rfl⟩
      · exact ⟨⟨3, by decide⟩, rfl⟩
      · exact ⟨⟨4, by decide⟩, rfl⟩
      · exact ⟨⟨5, by decide⟩, rfl⟩
      · exact ⟨⟨6, by decide⟩, rfl⟩
    obtain ⟨i, hi⟩ := hmem
    have := note_codec_enum_aux i sharp ⟨oct, by omega⟩
    rw [hi] at this
    exact this hsharp
  · intro b h1 h2
    exact note_codec_byte_aux ⟨b, by omega⟩ h1

/-- Witness for C5 at `A4` and at byte 69. -/
theorem note_codec_round_trip_witness :
    midiNote_from_str (noteText .A false 4) = some (noteVal .A false 4) ∧
    (midiNoteDisplay 69).bind midiNote_from_str = some 69 :=
  ⟨(note_codec_round_trip.2.1 .A false 4 (by decide) (by decide)).1,
    note_codec_round_trip.2.2 69 (by decide) (by decide)⟩

/-- C2: serialization of a command tree emits exactly one message per
leaf; with a well-formed root (the `Sysex` token at the root and nowhere
below it) every message independently begins with `0xf0` and ends with
`0xf7`; every message emitted below a node — in particular each message
of each sibling branch of a fork — starts with the header bytes
accumulated at that node; and the concrete example (a shared 3-byte
prefix and 3 leaf children) yields exactly 3 complete messages sharing
their first 4 bytes. -/
theorem serializer_fanout :
    (∀ (t : STree) (buf : SBuffer), (ser_tree t buf).length = tree_leaves t) ∧
    (∀ (cs : List STree), forest_no_sysex cs = true →
      ∀ m ∈ ser_tree (.node .sysex cs) SBuffer.empty,
        ∃ mid, m = 0xf0 :: mid ++ [0xf7]) ∧
    (∀ (tok : PToken) (cs : List STree) (buf : SBuffer),
      ∀ m ∈ ser_forest cs (token_to_sysex tok buf),
        (token_to_sysex tok buf).head <+: m) ∧
    ser_tree exampleTree SBuffer.empty =
      [[0xf0, 0x41, 0x42, 0x43, 0x10, 0xf7], [0xf0, 0x41, 0x42, 0x43, 0x11, 0xf7],
       [0xf0, 0x41, 0x42, 0x43, 0x12, 0xf7]] := by
  refine ⟨ser_tree_length, ?_, ?_, rfl⟩
  · intro cs h m hm
    cases cs with
    | nil =>
      simp only [ser_tree, List.mem_singleton] at hm
      exact ⟨[], by rw [hm]; rfl⟩
    | cons c cs' =>
      simp only [ser_tree] at hm
      obtain ⟨e, he⟩ := ser_forest_shape (c :: cs') _ h m hm
      exact ⟨e, by simpa using he⟩
  · intro tok cs buf m hm
    exact ser_forest_prefix cs _ m hm

/-- Witness for C2 on the example tree. -/
theorem serializer_fanout_witness :
    (ser_tree exampleTree SBuffer.empty).length = tree_leaves exampleTree ∧
    (∃ mid, [0xf0, 0x41, 0x42, 0x43, 0x11, 0xf7] = 0xf0 :: mid ++ [0xf7]) ∧
    (token_to_sysex (.vendor [0x41, 0x42, 0x43]) (token_to_sysex .sysex SBuffer.empty)).head
      <+: [0xf0, 0x41, 0x42, 0x43, 0x11, 0xf7] :=
  ⟨serializer_fanout.1 exampleTree SBuffer.empty,
   serializer_fanout.2.1 [.node (.vendor [0x41, 0x42, 0x43]) exampleLeaves] (by decide)
     [0xf0, 0x41, 0x42, 0x43, 0x11, 0xf7] (by decide),
   serializer_fanout.2.2.1 (.vendor [0x41, 0x42, 0x43]) exampleLeaves
     (token_to_sysex .sysex SBuffer.empty)
     [0xf0, 0x41, 0x42, 0x43, 0x11, 0xf7] (by decide)⟩

/-- C8: serialization is total and pure — `to_sysex` succeeds on every
command tree with the messages computed by the pure walk — and in the
update path every validation (bounds matching, arity checks via
`bound_codes`) completes before any message is built: a validation
error is returned as-is with no message emitted, and any emitted
message list implies validation succeeded. -/
theorem serialization_total_and_staged :
    (∀ t : STree, to_sysex t = .ok (ser_tree t SBuffer.empty)) ∧
    (∀ (param : MicrobruteGlobals) (msgId : Nat) (valueIds : List (List Char))
      (e : CodeErr),
      bound_codes (mbBounds param) valueIds (boundReqs param) = .error e →
      microbrute_update param msgId valueIds = .error e) ∧
    (∀ (param : MicrobruteGlobals) (msgId : Nat) (valueIds : List (List Char))
      (msgs : List (List Nat)),
      microbrute_update param msgId valueIds = .ok msgs →
      ∃ bcodes, bound_codes (mbBounds param) valueIds (boundReqs param) = .ok bcodes) := by
  refine ⟨fun t => rfl, ?_, ?_⟩
  · intro param msgId valueIds e h
    unfold microbrute_update
    rw [h]
  · intro param msgId valueIds msgs h
    unfold microbrute_update at h
    cases hb : bound_codes (mbBounds param) valueIds (boundReqs param) with
    | error e => rw [hb] at h; exact absurd h (by simp)
    | ok bcodes => exact ⟨bcodes, rfl⟩

/-- Witness for C8: the example tree serializes, and an update with a
missing value fails validation without emitting anything. -/
theorem serialization_total_and_staged_witness :
    to_sysex exampleTree = .ok (ser_tree exampleTree SBuffer.empty) ∧
    microbrute_update .Gate 0 [] = .error .MissingValue :=
  ⟨serialization_total_and_staged.1 exampleTree,
   serialization_total_and_staged.2.1 .Gate 0 [] .MissingValue rfl⟩

/-- C10: `PCTX::accept` succeeds exactly when the buffer at the current
position starts with the candidate token; a failed accept leaves the
read position (and message) unchanged, a successful one advances it by
exactly the token's length; consequently the vendor loop skips a
rejected candidate with the position intact and descends past exactly
the matched prefix on the first match. -/
theorem accept_frame_property :
    (∀ (p : PCTX) (token : List Nat),
      (pctx_accept p token).1 = true ↔
        token.isPrefixOf (p.message.drop p.pos) = true) ∧
    (∀ (p : PCTX) (token : List Nat), (pctx_accept p token).1 = false →
      (pctx_accept p token).2 = p) ∧
    (∀ (p : PCTX) (token : List Nat), (pctx_accept p token).1 = true →
      (pctx_accept p token).2.message = p.message ∧
      (pctx_accept p token).2.pos = p.pos + token.length) ∧
    (∀ (v : SVendor) (vs : List SVendor) (p : PCTX),
      (v.sysex.isPrefixOf (p.message.drop p.pos) = false →
        vendorLevel (v :: vs) p = vendorLevel vs p) ∧
      (v.sysex.isPrefixOf (p.message.drop p.pos) = true →
        vendorLevel (v :: vs) p =
          match deviceLevel v.devices { p with pos := p.pos + v.sysex.length } with
          | .ok (ts, p'') => .ok (.vendor v.sysex :: ts, p'')
          | .error e => .error e)) := by
  refine ⟨?_, ?_, ?_, ?_⟩
  · intro p token
    simp only [pctx_accept]
    split <;> simp_all
  · intro p token h
    simp only [pctx_accept] at h ⊢
    split <;> simp_all
  · intro p token h
    simp only [pctx_accept] at h ⊢
    split <;> simp_all
  · intro v vs p
    constructor
    · intro h
      simp only [vendorLevel, pctx_accept]
      split <;> simp_all
    · intro h
      simp only [vendorLevel, pctx_accept]
      split <;> simp_all

/-- Witness for C10 on a concrete two-byte message. -/
theorem accept_frame_property_witness :
    (pctx_accept { message := [0xf0, 0x41], pos := 1 } [0x42]).2
      = { message := [0xf0, 0x41], pos := 1 } ∧
    (pctx_accept { message := [0xf0, 0x41], pos := 1 } [0x41]).2.pos = 1 + 1 :=
  ⟨accept_frame_property.2.1 { message := [0xf0, 0x41], pos := 1 } [0x42] (by decide),
   (accept_frame_property.2.2.1 { message := [0xf0, 0x41], pos := 1 } [0x41] (by decide)).2⟩

/-- A list is a `isPrefixOf`-prefix of itself followed by anything. -/
theorem isPrefixOf_append_self (a b : List Nat) : a.isPrefixOf (a ++ b) = true := by
  induction a with
  | nil => simp [List.isPrefixOf]
  | cons x xs ih => simp [List.isPrefixOf, ih]

/-- `PCTX::accept` at a position where the remaining input is
`tok ++ rest` succeeds and advances past `tok`. -/
theorem pctx_accept_match (msg tok rest : List Nat) (pos : Nat)
    (h : msg.drop pos = tok ++ rest) :
    pctx_accept { message := msg, pos := pos } tok
      = (true, { message := msg, pos := pos + tok.length }) := by
  simp [pctx_accept, h, isPrefixOf_append_self]

/-- `PCTX::accept` on a non-prefix answers `false` and stays put. -/
theorem pctx_accept_nomatch (msg tok : List Nat) (pos : Nat)
    (h : tok.isPrefixOf (msg.drop pos) = false) :
    pctx_accept { message := msg, pos := pos } tok
      = (false, { message := msg, pos := pos }) := by
  simp [pctx_accept, h]

/-- `PCTX::next_byte` at a position with remaining input `b :: rest`
yields `b` and advances one byte. -/
theorem pctx_next_byte_at (msg rest : List Nat) (pos b : Nat)
    (h : msg.drop pos = b :: rest) :
    pctx_next_byte { message := msg, pos := pos }
      = .ok (b, { message := msg, pos := pos + 1 }) := by
  have h1 : msg[pos]? = some b := by
    have h2 := List.getElem?_drop msg pos 0
    rw [h] at h2
    simpa using h2.symm
  rw [List.getElem?_eq_some] at h1
  obtain ⟨hlt, hget⟩ := h1
  simp [pctx_next_byte, hlt, hget]

/-- `PCTX::next_byte` at the end of the input is a `ShortRead`. -/
theorem pctx_next_byte_end (msg : List Nat) (pos : Nat)
    (h : msg.drop pos = []) :
    pctx_next_byte { message := msg, pos := pos } = .error .ShortRead := by
  have hle : msg.length ≤ pos := by
    have := congrArg List.length h
    simp at this
    omega
  simp [pctx_next_byte, Nat.not_lt.mpr hle]

/-- Dropping past a known segment of the input. -/
theorem drop_add_length (msg tok rest : List Nat) (pos : Nat)
    (h : msg.drop pos = tok ++ rest) : msg.drop (pos + tok.length) = rest := by
  rw [← List.drop_drop]
  rw [h]
  exact List.drop_left tok rest

/-- Dropping past a known single byte of the input. -/
theorem drop_succ_of (msg rest : List Nat) (pos b : Nat)
    (h : msg.drop pos = b :: rest) : msg.drop (pos + 1) = rest := by
  have := drop_add_length msg [b] rest pos (by simpa using h)
  simpa using this


/-- When no vendor prefix matches, the vendor level is `UnknownVendor`. -/
theorem vendorLevel_no_match (vendors : List SVendor) (p : PCTX)
    (h : ∀ v ∈ vendors, v.sysex.isPrefixOf (p.message.drop p.pos) = false) :
    vendorLevel vendors p = .error .UnknownVendor := by
  induction vendors with
  | nil => rfl
  | cons v vs ih =>
    have hv : v.sysex.isPrefixOf (p.message.drop p.pos) = false := h v (by simp)
    simp only [vendorLevel, pctx_accept, hv]
    simp only [Bool.false_eq_true, if_false]
    exact ih (fun w hw => h w (by simp [hw]))

/-- When no device id matches, the device level is `UnknownDevice`. -/
theorem deviceLevel_no_match (devices : List SDevice) (p : PCTX)
    (h : ∀ d ∈ devices, d.sysex.isPrefixOf (p.message.drop p.pos) = false) :
    deviceLevel devices p = .error .UnknownDevice := by
  induction devices with
  | nil => rfl
  | cons d ds ih =>
    have hd : d.sysex.isPrefixOf (p.message.drop p.pos) = false := h d (by simp)
    simp only [deviceLevel, pctx_accept, hd]
    simp only [Bool.false_eq_true, if_false]
    exact ih (fun w hw => h w (by simp [hw]))

/-- When no plain control code matches, the control loop yields nothing. -/
theorem controlsLoop_no_match (controls : List SControl) (p : PCTX)
    (h : ∀ c ∈ controls, c.sysex.isPrefixOf (p.message.drop p.pos) = false) :
    controlsLoop controls p = none := by
  induction controls with
  | nil => rfl
  | cons c cs ih =>
    have hc : c.sysex.isPrefixOf (p.message.drop p.pos) = false := h c (by simp)
    simp only [controlsLoop, pctx_accept, hc]
    simp only [Bool.false_eq_true, if_false]
    exact ih (fun w hw => h w (by simp [hw]))

/-- When no indexed control code matches, the indexed loop yields nothing. -/
theorem indexedLoop_no_match (controls : List SIndexedControl) (p : PCTX)
    (h : ∀ c ∈ controls, c.sysex.isPrefixOf (p.message.drop p.pos) = false) :
    indexedLoop controls p = none := by
  induction controls with
  | nil => rfl
  | cons c cs ih =>
    have hc : c.sysex.isPrefixOf (p.message.drop p.pos) = false := h c (by simp)
    simp only [indexedLoop, pctx_accept, hc]
    simp only [Bool.false_eq_true, if_false]
    exact ih (fun w hw => h w (by simp [hw]))

/-- `SysexReply::parse` on an `0xf0`-framed message descends into the
vendor level one byte in. -/
theorem sysex_parse_cons (vendors : List SVendor) (rest : List Nat) :
    sysex_parse vendors (0xf0 :: rest) =
      match vendorLevel vendors { message := 0xf0 :: rest, pos := 1 } with
      | .ok (ts, _) => .ok ts
      | .error e => .error e := by
  have ha : pctx_accept { message := 0xf0 :: rest, pos := 0 } [0xf0]
      = (true, { message := 0xf0 :: rest, pos := 0 + 1 }) := by
    apply pctx_accept_match (0xf0 :: rest) [0xf0] rest 0
    rfl
  simp only [sysex_parse, List.isEmpty_cons, pctx_expect, ha]
  simp


/-- C7: the wire decoder distinguishes its failure causes — the empty
buffer is `EmptyMessage`; a non-empty buffer not starting with `0xf0`
is the `Expected` error with nothing consumed from the schema; no
matching vendor prefix after `0xf0` is `UnknownVendor`; and, per level,
no matching device id is `UnknownDevice`, a device match with fewer
than the three required header bytes is `ShortRead`, no matching
control code is `UnknownControl`, and a control whose declared bounds
all fail to match structurally is `NoMatchingBounds`. -/
theorem decoder_error_taxonomy :
    (∀ vendors : List SVendor, sysex_parse vendors [] = .error .EmptyMessage) ∧
    (∀ (vendors : List SVendor) (b : Nat) (rest : List Nat), b ≠ 0xf0 →
      sysex_parse vendors (b :: rest) = .error (.Expected [0xf0])) ∧
    (∀ (vendors : List SVendor) (rest : List Nat),
      (∀ v ∈ vendors, v.sysex.isPrefixOf rest = false) →
      sysex_parse vendors (0xf0 :: rest) = .error .UnknownVendor) ∧
    (∀ (vb : List Nat) (devices : List SDevice) (rest₂ : List Nat),
      (∀ d ∈ devices, d.sysex.isPrefixOf rest₂ = false) →
      sysex_parse [⟨vb, devices⟩] (0xf0 :: (vb ++ rest₂)) = .error .UnknownDevice) ∧
    (∀ (vb db : List Nat) (cs : List SControl) (ics : List SIndexedControl)
      (rest₃ : List Nat), rest₃.length < 3 →
      sysex_parse [⟨vb, [⟨db, cs, ics⟩]⟩] (0xf0 :: (vb ++ (db ++ rest₃)))
        = .error .ShortRead) ∧
    (∀ (vb db : List Nat) (i r u : Nat) (cs : List SControl)
      (ics : List SIndexedControl) (rest₄ : List Nat),
      (∀ c ∈ cs, c.sysex.isPrefixOf rest₄ = false) →
      (∀ c ∈ ics, c.sysex.isPrefixOf rest₄ = false) →
      sysex_parse [⟨vb, [⟨db, cs, ics⟩]⟩]
          (0xf0 :: (vb ++ (db ++ (i :: r :: u :: rest₄))))
        = .error (.UnknownControl (0xf0 :: (vb ++ (db ++ (i :: r :: u :: rest₄)))))) ∧
    (∀ (vb db cb : List Nat) (i r u bv x : Nat), x ≠ bv →
      sysex_parse [⟨vb, [⟨db, [⟨cb, [.value ⟨bv⟩]⟩], []⟩]⟩]
          (0xf0 :: (vb ++ (db ++ (i :: r :: u :: (cb ++ [x])))))
        = .error .NoMatchingBounds) := by
  refine ⟨fun _ => rfl, ?_, ?_, ?_, ?_, ?_, ?_⟩
  · intro vendors b rest hb
    have hpre : ([0xf0] : List Nat).isPrefixOf ((b :: rest).drop 0) = false := by
      simp [List.isPrefixOf]
      omega
    simp only [sysex_parse, List.isEmpty_cons, pctx_expect,
      pctx_accept_nomatch _ [0xf0] 0 hpre]
    simp
  · intro vendors rest h
    rw [sysex_parse_cons]
    rw [vendorLevel_no_match vendors _ (by intro v hv; exact h v hv)]
  · intro vb devices rest₂ h
    have h1 : (0xf0 :: (vb ++ rest₂)).drop 1 = vb ++ rest₂ := rfl
    have h2 : (0xf0 :: (vb ++ rest₂)).drop (1 + vb.length) = rest₂ :=
      drop_add_length _ vb rest₂ 1 h1
    have hdl : deviceLevel devices
        { message := 0xf0 :: (vb ++ rest₂), pos := 1 + vb.length }
        = .error .UnknownDevice := by
      apply deviceLevel_no_match
      intro d hd
      show d.sysex.isPrefixOf ((0xf0 :: (vb ++ rest₂)).drop (1 + vb.length)) = false
      rw [h2]
      exact h d hd
    rw [sysex_parse_cons]
    simp only [vendorLevel, pctx_accept_match _ vb rest₂ 1 h1, hdl]
  · intro vb db cs ics rest₃ hlen
    set m := 0xf0 :: (vb ++ (db ++ rest₃)) with hm
    have h1 : m.drop 1 = vb ++ (db ++ rest₃) := rfl
    have h2 : m.drop (1 + vb.length) = db ++ rest₃ := drop_add_length _ vb _ 1 h1
    have h3 : m.drop (1 + vb.length + db.length) = rest₃ :=
      drop_add_length _ db _ (1 + vb.length) h2
    rw [sysex_parse_cons]
    rcases rest₃ with _ | ⟨a, _ | ⟨b2, _ | ⟨c2, t⟩⟩⟩
    · simp only [vendorLevel, deviceLevel, pctx_accept_match _ vb _ 1 h1,
        pctx_accept_match _ db _ (1 + vb.length) h2, pctx_next_byte_end m _ h3]
    · have h4 : m.drop (1 + vb.length + db.length + 1) = [] :=
        drop_succ_of m _ _ a h3
      simp only [vendorLevel, deviceLevel, pctx_accept_match _ vb _ 1 h1,
        pctx_accept_match _ db _ (1 + vb.length) h2, pctx_next_byte_at m _ _ a h3,
        pctx_next_byte_end m _ h4]
    · have h4 : m.drop (1 + vb.length + db.length + 1) = [b2] :=
        drop_succ_of m _ _ a h3
      have h5 : m.drop (1 + vb.length + db.length + 1 + 1) = [] :=
        drop_succ_of m _ _ b2 h4
      simp only [vendorLevel, deviceLevel, pctx_accept_match _ vb _ 1 h1,
        pctx_accept_match _ db _ (1 + vb.length) h2, pctx_next_byte_at m _ _ a h3,
        pctx_next_byte_at m _ _ b2 h4, pctx_next_byte_end m _ h5]
    · exact absurd hlen (by simp)
  · intro vb db i r u cs ics rest₄ hc hic
    set m := 0xf0 :: (vb ++ (db ++ (i :: r :: u :: rest₄))) with hm
    have h1 : m.drop 1 = vb ++ (db ++ (i :: r :: u :: rest₄)) := rfl
    have h2 : m.drop (1 + vb.length) = db ++ (i :: r :: u :: rest₄) :=
      drop_add_length _ vb _ 1 h1
    have h3 : m.drop (1 + vb.length + db.length) = i :: r :: u :: rest₄ :=
      drop_add_length _ db _ (1 + vb.length) h2
    have h4 := drop_succ_of m _ _ i h3
    have h5 := drop_succ_of m _ _ r h4
    have h6 := drop_succ_of m _ _ u h5
    have hcl : controlsLoop cs
        { message := m, pos := 1 + vb.length + db.length + 1 + 1 + 1 } = none := by
      apply controlsLoop_no_match
      intro c hcm
      show c.sysex.isPrefixOf (m.drop (1 + vb.length + db.length + 1 + 1 + 1)) = false
      rw [h6]
      exact hc c hcm
    have hil : indexedLoop ics
        { message := m, pos := 1 + vb.length + db.length + 1 + 1 + 1 } = none := by
      apply indexedLoop_no_match
      intro c hcm
      show c.sysex.isPrefixOf (m.drop (1 + vb.length + db.length + 1 + 1 + 1)) = false
      rw [h6]
      exact hic c hcm
    rw [sysex_parse_cons]
    simp only [vendorLevel, deviceLevel, controlLevel,
      pctx_accept_match _ vb _ 1 h1, pctx_accept_match _ db _ (1 + vb.length) h2,
      pctx_next_byte_at m _ _ i h3, pctx_next_byte_at m _ _ r h4,
      pctx_next_byte_at m _ _ u h5, hcl, hil]
  · intro vb db cb i r u bv x hx
    set m := 0xf0 :: (vb ++ (db ++ (i :: r :: u :: (cb ++ [x])))) with hm
    have h1 : m.drop 1 = vb ++ (db ++ (i :: r :: u :: (cb ++ [x]))) := rfl
    have h2 : m.drop (1 + vb.length) = db ++ (i :: r :: u :: (cb ++ [x])) :=
      drop_add_length _ vb _ 1 h1
    have h3 : m.drop (1 + vb.length + db.length) = i :: r :: u :: (cb ++ [x]) :=
      drop_add_length _ db _ (1 + vb.length) h2
    have h4 := drop_succ_of m _ _ i h3
    have h5 := drop_succ_of m _ _ r h4
    have h6 := drop_succ_of m _ _ u h5
    have h7 : m.drop (1 + vb.length + db.length + 1 + 1 + 1 + cb.length) = [x] :=
      drop_add_length _ cb _ _ h6
    rw [sysex_parse_cons]
    simp only [vendorLevel, deviceLevel, controlLevel, controlsLoop, boundsLevel,
      valuesTry, pctx_accept_match _ vb _ 1 h1,
      pctx_accept_match _ db _ (1 + vb.length) h2,
      pctx_next_byte_at m _ _ i h3, pctx_next_byte_at m _ _ r h4,
      pctx_next_byte_at m _ _ u h5, pctx_accept_match _ cb _ _ h6,
      pctx_next_byte_at m _ _ x h7]
    simp [hx]


/-- `split` on an absent separator returns the whole string. -/
theorem split1_eq_single (c : Char) (a : List Char) (h : c ∉ a) : split1 c a = [a] := by
  induction a with
  | nil => rfl
  | cons x xs ih =>
    simp only [List.mem_cons, not_or] at h
    have hx : ¬ x = c := fun hh => h.1 hh.symm
    simp only [split1, if_neg hx, ih h.2]

/-- `split` at the first separator occurrence splits off the head field. -/
theorem split1_append_cons (c : Char) (a b : List Char) (h : c ∉ a) :
    split1 c (a ++ c :: b) = a :: split1 c b := by
  induction a with
  | nil => simp [split1]
  | cons x xs ih =>
    simp only [List.mem_cons, not_or] at h
    have hx : ¬ x = c := fun hh => h.1 hh.symm
    simp only [List.cons_append, split1, if_neg hx, List.append_eq, ih h.2]

/-- C9 counterexample: a parameter `Knob` exists with a mode named
`Fast` in its mode set, yet `parse_key("Knob:Fast")` is rejected with
`UnknownParameter` — a supplied mode name that exists is not accepted,
because the bare `Name:Mode` shape fails name resolution before mode
validation (the C3 slip). -/
theorem supplied_mode_counterexample :
    (∃ pm, knobParams.lookup ['K', 'n', 'o', 'b'] = some pm ∧
      (pm.modes.getD []).lookup ['F', 'a', 's', 't'] = some { sysex := [0x03] }) ∧
    parse_key knobParams (['K', 'n', 'o', 'b'] ++ ':' :: ['F', 'a', 's', 't'])
      = .error .UnknownParameter :=
  ⟨⟨_, rfl, rfl⟩, rfl⟩


/-- C9 (amended): for keys whose control name resolves — shapes `Name`,
`Name/Index`, `Name/Index:Mode`; the bare `Name:Mode` shape fails name
resolution upstream — a supplied index is accepted iff
`lo <= index <= hi` of the control's declared Range, otherwise
`BadIndexParameter`; a supplied mode name is accepted iff the control
has modes and the name is in its mode set, a mismatch in either
direction being `BadModeParameter`; a mode must be absent when the
control has no modes. Stated for the validation stage (`checkIndex`,
`checkMode`, the `match` blocks of src/schema.rs:84-115) and end-to-end
through `parse_key` for the `Name/Index` and `Name/Index:Mode` shapes. -/
theorem key_validation_amended :
    (∀ (v : Nat) (rng : Option KRange),
      (checkIndex (some v) rng = .ok (some v) ↔
        ∃ r, rng = some r ∧ r.lo ≤ v ∧ v ≤ r.hi) ∧
      (checkIndex (some v) rng = .ok (some v) ∨
        checkIndex (some v) rng = .error .BadIndexParameter)) ∧
    (∀ (m : List Char) (ms : Option (List (List Char × KMode))) (md : KMode),
      checkMode (some m) ms = .ok (some md) ↔
        ∃ l, ms = some l ∧ l.lookup m = some md) ∧
    (∀ (m : List Char), checkMode (some m) none = .error .BadModeParameter) ∧
    checkMode none none = .ok none ∧
    (∀ (params : List (List Char × KParameter)) (name idxStr : List Char)
      (pm : KParameter) (v : Nat),
      params.lookup name = some pm → pm.modes = none →
      '/' ∉ name → ':' ∉ name → '/' ∉ idxStr → ':' ∉ idxStr →
      parseUsize idxStr = some v →
      parse_key params (name ++ '/' :: idxStr) =
        match pm.range with
        | some r =>
          if r.lo ≤ v ∧ v ≤ r.hi then
            .ok { name := name, param := pm, index := some v, mode := none }
          else .error .BadIndexParameter
        | none => .error .BadIndexParameter) ∧
    (∀ (params : List (List Char × KParameter)) (name idxStr modeStr : List Char)
      (pm : KParameter) (r : KRange) (v : Nat),
      params.lookup name = some pm → pm.range = some r →
      r.lo ≤ v → v ≤ r.hi →
      '/' ∉ name → ':' ∉ name → '/' ∉ idxStr → ':' ∉ idxStr →
      '/' ∉ modeStr → ':' ∉ modeStr →
      parseUsize idxStr = some v →
      parse_key params (name ++ '/' :: (idxStr ++ ':' :: modeStr)) =
        match pm.modes with
        | some ms =>
          match ms.lookup modeStr with
          | some md =>
            .ok { name := name, param := pm, index := some v, mode := some md }
          | none => .error .BadModeParameter
        | none => .error .BadModeParameter) := by
  refine ⟨?_, ?_, fun m => rfl, rfl, ?_, ?_⟩
  · intro v rng
    constructor
    · cases rng with
      | none => simp [checkIndex]
      | some r =>
        by_cases hb : r.lo ≤ v ∧ v ≤ r.hi
        · simp [checkIndex, hb]
        · simp only [checkIndex, if_neg hb]
          constructor
          · intro hh; exact absurd hh (by simp)
          · rintro ⟨r', hr', hb'⟩
            cases Option.some.inj hr'
            exact absurd hb' hb
    · cases rng with
      | none => right; rfl
      | some r =>
        by_cases hb : r.lo ≤ v ∧ v ≤ r.hi
        · left; simp [checkIndex, hb]
        · right; simp [checkIndex, hb]
  · intro m ms md
    cases ms with
    | none =>
      constructor
      · intro hh; exact absurd hh (by simp [checkMode])
      · rintro ⟨l, hl, _⟩; exact absurd hl (by simp)
    | some l =>
      cases hl : l.lookup m with
      | none =>
        constructor
        · intro hh; simp [checkMode, hl] at hh
        · rintro ⟨l', hl', hh⟩
          cases Option.some.inj hl'
          rw [hl] at hh
          exact absurd hh (by simp)
      | some md' =>
        constructor
        · intro hh
          have hmd : md' = md := by simpa [checkMode, hl] using hh
          exact ⟨l, rfl, by rw [hl, hmd]⟩
        · rintro ⟨l', hl', hh⟩
          cases Option.some.inj hl'
          rw [hl] at hh
          have hmd : md' = md := Option.some.inj hh
          simp [checkMode, hl, hmd]
  · intro params name idxStr pm v hlook hmodes hn1 hn2 hi1 hi2 hp
    have hs1 : split1 '/' (name ++ '/' :: idxStr) = [name, idxStr] := by
      rw [split1_append_cons '/' name idxStr hn1, split1_eq_single '/' idxStr hi1]
    have hnotc : ':' ∉ (name ++ '/' :: idxStr) := by
      intro hmem
      rcases List.mem_append.mp hmem with hh | hh
      · exact hn2 hh
      · rcases List.mem_cons.mp hh with hh | hh
        · exact absurd hh (by decide)
        · exact hi2 hh
    have hs2 : split1 ':' (name ++ '/' :: idxStr) = [name ++ '/' :: idxStr] :=
      split1_eq_single ':' _ hnotc
    simp only [parse_key, hs1, hs2, List.head?_cons, List.length_cons,
      List.length_nil, List.get?_cons_succ, List.get?_cons_zero, hlook, hp]
    cases hr : pm.range with
    | none => simp [checkIndex, checkMode, hmodes]
    | some r =>
      by_cases hb : r.lo ≤ v ∧ v ≤ r.hi
      · simp [checkIndex, checkMode, hmodes, hb]
      · simp [checkIndex, checkMode, hmodes, hb]
  · intro params name idxStr modeStr pm r v hlook hrange hlo hhi hn1 hn2 hi1 hi2
      hm1 hm2 hp
    have hslash : '/' ∉ (idxStr ++ ':' :: modeStr) := by
      intro hmem
      rcases List.mem_append.mp hmem with hh | hh
      · exact hi1 hh
      · rcases List.mem_cons.mp hh with hh | hh
        · exact absurd hh (by decide)
        · exact hm1 hh
    have hs1 : split1 '/' (name ++ '/' :: (idxStr ++ ':' :: modeStr))
        = [name, idxStr ++ ':' :: modeStr] := by
      rw [split1_append_cons '/' name _ hn1,
        split1_eq_single '/' _ hslash]
    have hnotc : ':' ∉ (name ++ '/' :: idxStr) := by
      intro hmem
      rcases List.mem_append.mp hmem with hh | hh
      · exact hn2 hh
      · rcases List.mem_cons.mp hh with hh | hh
        · exact absurd hh (by decide)
        · exact hi2 hh
    have hs2 : split1 ':' (name ++ '/' :: (idxStr ++ ':' :: modeStr))
        = [name ++ '/' :: idxStr, modeStr] := by
      have hassoc : name ++ '/' :: (idxStr ++ ':' :: modeStr)
          = (name ++ '/' :: idxStr) ++ ':' :: modeStr := by
        simp [List.append_assoc]
      rw [hassoc, split1_append_cons ':' _ _ hnotc,
        split1_eq_single ':' modeStr hm2]
    have hs3 : split1 ':' (idxStr ++ ':' :: modeStr) = [idxStr, modeStr] := by
      rw [split1_append_cons ':' _ _ hi2, split1_eq_single ':' modeStr hm2]
    simp only [parse_key, hs1, hs2, hs3, List.head?_cons, List.length_cons,
      List.length_nil, List.get?_cons_succ, List.get?_cons_zero, Option.getD_some,
      hlook, hp]
    simp only [checkIndex, hrange, if_pos (And.intro hlo hhi)]
    cases hms : pm.modes with
    | none => simp [checkMode]
    | some ms =>
      cases hl : ms.lookup modeStr with
      | none => simp [checkMode, hl]
      | some md => simp [checkMode, hl]


/-- Witness for C7 on concrete schemas and buffers, one per failure cause. -/
theorem decoder_error_taxonomy_witness :
    sysex_parse [] [] = .error .EmptyMessage ∧
    sysex_parse [] [0x41] = .error (.Expected [0xf0]) ∧
    sysex_parse [⟨[0x00, 0x20, 0x6b], []⟩] (0xf0 :: [0x7e]) = .error .UnknownVendor ∧
    sysex_parse [⟨[0x00], [⟨[0x06], [], []⟩]⟩] (0xf0 :: ([0x00] ++ [0x05]))
      = .error .UnknownDevice ∧
    sysex_parse [⟨[0x00], [⟨[0x05], [], []⟩]⟩] (0xf0 :: ([0x00] ++ ([0x05] ++ [0x01])))
      = .error .ShortRead ∧
    sysex_parse [⟨[0x00], [⟨[0x05], [], []⟩]⟩]
        (0xf0 :: ([0x00] ++ ([0x05] ++ (0 :: 0 :: 0 :: ([] : List Nat)))))
      = .error (.UnknownControl
          (0xf0 :: ([0x00] ++ ([0x05] ++ (0 :: 0 :: 0 :: ([] : List Nat)))))) ∧
    sysex_parse [⟨[0x00], [⟨[0x05], [⟨[0x01], [.value ⟨0x01⟩]⟩], []⟩]⟩]
        (0xf0 :: ([0x00] ++ ([0x05] ++ (0 :: 0 :: 0 :: ([0x01] ++ [0x02])))))
      = .error .NoMatchingBounds :=
  ⟨decoder_error_taxonomy.1 [],
   decoder_error_taxonomy.2.1 [] 0x41 [] (by decide),
   decoder_error_taxonomy.2.2.1 [⟨[0x00, 0x20, 0x6b], []⟩] [0x7e] (by decide),
   decoder_error_taxonomy.2.2.2.1 [0x00] [⟨[0x06], [], []⟩] [0x05] (by decide),
   decoder_error_taxonomy.2.2.2.2.1 [0x00] [0x05] [] [] [0x01] (by decide),
   decoder_error_taxonomy.2.2.2.2.2.1 [0x00] [0x05] 0 0 0 [] [] [] (by decide)
     (by decide),
   decoder_error_taxonomy.2.2.2.2.2.2 [0x00] [0x05] [0x01] 0 0 0 0x01 0x02
     (by decide)⟩

/-- Witness for C9 at a concrete `Seq/3` key and a concrete mode check. -/
theorem key_validation_amended_witness :
    checkIndex (some 3) (some { lo := 1, hi := 8, offset := some 1 })
      = .ok (some 3) ∧
    checkMode (some ['F', 'a', 's', 't']) none = .error .BadModeParameter ∧
    parse_key
        [(['S', 'e', 'q'],
          { sysex := [0x23, 0x3a],
            range := some { lo := 1, hi := 8, offset := some 1 },
            modes := none })]
        (['S', 'e', 'q'] ++ '/' :: ['3'])
      = .ok { name := ['S', 'e', 'q'],
              param := { sysex := [0x23, 0x3a],
                         range := some { lo := 1, hi := 8, offset := some 1 },
                         modes := none },
              index := some 3, mode := none } :=
  ⟨(key_validation_amended.1 3 (some { lo := 1, hi := 8, offset := some 1 })).1.mpr
      ⟨_, rfl, by decide, by decide⟩,
   key_validation_amended.2.2.1 ['F', 'a', 's', 't'],
   key_validation_amended.2.2.2.2.1
     [(['S', 'e', 'q'],
       { sysex := [0x23, 0x3a],
         range := some { lo := 1, hi := 8, offset := some 1 },
         modes := none })]
     ['S', 'e', 'q'] ['3']
     { sysex := [0x23, 0x3a],
       range := some { lo := 1, hi := 8, offset := some 1 },
       modes := none }
     3 rfl rfl (by decide) (by decide) (by decide) (by decide) (by decide)⟩

end LaBruteForce
